import Mathlib

/-!
Verification of the weekly focus-timeline generator
(`src/daily_timeline_viz.py`) against its specification.

The script's pipeline is:
  `load_session_data` (normalize + filter CSV rows) →
  `generate_html_report` (group by week / day, iterate weeks in sorted
  order, render each week with `create_weekly_timeline`, save one PNG per
  week, then write an index HTML page).

Shallow embedding choices, stated once here:

* Timestamps (`pd.to_datetime` results, second precision) are modelled as
  an absolute calendar-day index `day : ℤ` together with
  hour/minute/second.  Day indices are anchored so that `day % 7 = 0`
  means Monday, matching pandas `Timestamp.dayofweek` (Monday = 0 …
  Sunday = 6).
* `timestamp.dt.to_period('W-MON').dt.start_time.dt.date`
  (line 123): a pandas `'W-MON'` weekly period is anchored on its END
  day, Monday, so the period containing day `d` runs from the most
  recent Tuesday through the following Monday and its `start_time` is
  that Tuesday: `d - ((d % 7 + 6) % 7)`.
* Real-valued quantities (`duration_minutes` after `pd.to_numeric`, hours
  of day, axis bounds) are modelled in `ℚ`.
* `DataFrame.sort_values('timestamp')` is modelled as a sort by the
  timestamp key.  numpy's default sort coincides with a stable insertion
  sort on the short per-day arrays evaluated concretely below; on ties
  its order is an implementation detail of numpy (see the C6 theorems).
* `fig.savefig` (the only per-week side effect, line 270) is modelled by
  an oracle `saveOk : ℤ → Bool` saying which weeks' writes succeed.  The
  Python loop has no exception handler, so a failed write aborts
  `generate_html_report`: files written before the failure remain, the
  rest of the loop and the index HTML write never run.
* The unused CSV columns (`websites`, `completion_notes`, `learnings`,
  `additional_notes`) are never read after the rename and are not
  modelled; neither are purely visual constants (figure size, fonts).
-/

namespace DailyTimelineViz

/-- A parsed `pd.Timestamp` at second precision.  `day` is the absolute
calendar-day index (anchored so `day % 7 = 0` is a Monday). -/
structure Timestamp where
  day : ℤ
  hour : ℕ
  minute : ℕ
  second : ℕ
deriving DecidableEq, Repr

/-- Total seconds since the day-0 midnight; the sort key that
`sort_values('timestamp')` compares by. -/
def Timestamp.toSeconds (t : Timestamp) : ℤ :=
  ((t.day * 24 + (t.hour : ℤ)) * 60 + (t.minute : ℤ)) * 60 + (t.second : ℤ)

/-- `df['timestamp'].dt.dayofweek` (line 124): Monday = 0 … Sunday = 6. -/
def dayofweek (d : ℤ) : ℤ := d % 7

/-- `df['timestamp'].dt.to_period('W-MON').dt.start_time.dt.date`
(line 123).  pandas `'W-MON'` weekly periods END on Monday, so the period
containing day `d` starts at the most recent day with weekday Tuesday. -/
def weekStartOfDay (d : ℤ) : ℤ := d - (d % 7 + 6) % 7

/-- One CSV row after the rename on lines 110-111, with the fields the
pipeline reads.  `task_name = none` models an NA cell; `duration_minutes
= none` models a cell `pd.to_numeric(..., errors='coerce')` (line 116)
turns into NaN. -/
structure RawRow where
  task_name : Option String
  duration_minutes : Option ℚ
  timestamp : Timestamp
deriving DecidableEq

/-- `pd.to_numeric(df['duration_minutes'], errors='coerce').fillna(0)`
(line 116): an unparseable duration becomes `0`. -/
def coerceDuration (r : RawRow) : ℚ := r.duration_minutes.getD 0

/-- The row filter of lines 119-120:
`df = df[df['duration_minutes'] > 0]` and
`df = df[df['task_name'].notna() & (df['task_name'] != '')]`. -/
def rowValid (r : RawRow) : Bool :=
  decide (0 < coerceDuration r) && (r.task_name.isSome && decide (r.task_name ≠ some ""))

/-- One validated session with the derived columns of lines 115 and
123-124. -/
structure SessionRecord where
  task_name : String
  duration_minutes : ℚ
  timestamp : Timestamp
  date : ℤ
  week_start : ℤ
  day_of_week : ℤ
deriving DecidableEq

/-- The record a surviving row becomes: the renamed columns plus
`date` (line 115), `week_start` (line 123) and `day_of_week`
(line 124). -/
def mkRecord (r : RawRow) : SessionRecord :=
  { task_name := r.task_name.getD ""
    duration_minutes := coerceDuration r
    timestamp := r.timestamp
    date := r.timestamp.day
    week_start := weekStartOfDay r.timestamp.day
    day_of_week := dayofweek r.timestamp.day }

/-- `load_session_data` (lines 104-126): coerce, filter invalid rows,
attach the derived columns.  The Python code adds the derived columns
after filtering; since the filter only reads raw fields, filtering first
and then building the full record is the same function. -/
def load_session_data (rows : List RawRow) : List SessionRecord :=
  (rows.filter rowValid).map mkRecord

/-- The week-start column always lands on weekday 1 (a Tuesday), one of
`date - 6 … date`. -/
lemma weekStartOfDay_mod (d : ℤ) :
    weekStartOfDay d % 7 = 1 ∧ weekStartOfDay d ≤ d ∧ d ≤ weekStartOfDay d + 6 := by
  unfold weekStartOfDay
  omega

/-! ## The timeline layout engine (`create_weekly_timeline`, lines 128-237) -/

/-- `start_hour = 7  # Start at 7 AM` (line 141). -/
def start_hour : ℚ := 7

/-- `session['timestamp'].hour + session['timestamp'].minute / 60`
(lines 148 and 194). -/
def session_start_hour (s : SessionRecord) : ℚ :=
  (s.timestamp.hour : ℚ) + (s.timestamp.minute : ℚ) / 60

/-- `session_start_hour + session['duration_minutes'] / 60` (line 149). -/
def session_end_hour (s : SessionRecord) : ℚ :=
  session_start_hour s + s.duration_minutes / 60

/-- One week's grouped sessions as `create_weekly_timeline` receives
them: the day-of-week keyed dict, looked up at `0 … 6`.  A day the dict
does not contain is the empty list (equivalent: every `if day_idx in
weekly_sessions` guard in the source reads `[]` as sums of zero terms
and loops over nothing). -/
def WeeklySessions : Type := ℕ → List SessionRecord

/-- The axis scan of lines 142-150: starting from `start_hour`, take the
max of `session_end_hour` over every session of every day of the week
(no filtering — sessions that start before 7 AM are scanned too). -/
def latest_end_hour_scan (weekly : WeeklySessions) : ℚ :=
  (List.range 7).foldl
    (fun acc d => (weekly d).foldl (fun a s => max a (session_end_hour s)) acc)
    start_hour

/-- `latest_end_hour = min(24, latest_end_hour + 0.5)` (line 153): the
final shared axis bound for the week. -/
def end_hour (weekly : WeeklySessions) : ℚ :=
  min 24 (latest_end_hour_scan weekly + 1 / 2)

/-- Every session of the week in day order, the list the nested scan of
lines 145-150 walks. -/
def weekSessions (weekly : WeeklySessions) : List SessionRecord :=
  (List.range 7).flatMap weekly

/-- The sort key comparison behind `sort_values('timestamp')`
(lines 172 and 247). -/
def tsLeR (a b : SessionRecord) : Prop :=
  a.timestamp.toSeconds ≤ b.timestamp.toSeconds

instance : DecidableRel tsLeR := fun a b =>
  Int.decLe a.timestamp.toSeconds b.timestamp.toSeconds

instance : IsTotal SessionRecord tsLeR := ⟨fun a b =>
  Int.le_total a.timestamp.toSeconds b.timestamp.toSeconds⟩

instance : IsTrans SessionRecord tsLeR := ⟨fun _ _ _ => Int.le_trans⟩

/-- `sort_values('timestamp')` on one day's sessions.  Modelled as a
stable sort by the timestamp key; numpy's default sort agrees with this
on the short arrays evaluated concretely in this file (its tie order in
general is a numpy implementation detail, see the C6 theorems). -/
def sortedDay (sessions : List SessionRecord) : List SessionRecord :=
  List.insertionSort tsLeR sessions

/-- Lowercase hex digit of `n ∈ 0 … 15`, as in Python's `format(n, 'x')`. -/
def hexDigit (n : ℕ) : Char :=
  if n < 10 then Char.ofNat (48 + n) else Char.ofNat (87 + n)

/-- `f"{n:02x}"` for a channel value `n < 256`. -/
def hexByte (n : ℕ) : List Char := [hexDigit (n / 16), hexDigit (n % 16)]

/-- `f"#{r:02x}{g:02x}{b:02x}"` (line 187). -/
def rgbHex (r g b : ℕ) : String := ⟨'#' :: (hexByte r ++ hexByte g ++ hexByte b)⟩

/-- Python `int(...)` on the non-negative channel values of
lines 184-186: truncation toward zero. -/
def pyInt (q : ℚ) : ℤ := if q < 0 then -⌊-q⌋ else ⌊q⌋

/-- `ratio = i / (num_sessions - 1) if num_sessions > 1 else 0`
(line 182). -/
def gradientRatio (i num_sessions : ℕ) : ℚ :=
  if 1 < num_sessions then (i : ℚ) / ((num_sessions : ℚ) - 1) else 0

/-- `int(a + (b - a) * ratio)`, one RGB channel of lines 184-186. -/
def interpChannel (a b : ℕ) (ratio : ℚ) : ℕ :=
  (pyInt ((a : ℚ) + ((b : ℚ) - (a : ℚ)) * ratio)).toNat

/-- The per-day color list of lines 175-187: `['#b8f2e6']` for a single
session, otherwise one interpolated color per index of the full
(pre-filter) sorted day list, from light teal `(184, 242, 230)` to light
lavender `(238, 187, 238)`. -/
def gradientColors (num_sessions : ℕ) : List String :=
  if num_sessions = 1 then ["#b8f2e6"]
  else
    (List.range num_sessions).map fun i =>
      let ratio := gradientRatio i num_sessions
      rgbHex (interpChannel 184 238 ratio) (interpChannel 242 187 ratio)
        (interpChannel 230 238 ratio)

/-- Label truncation of lines 209-211: names longer than 18 characters
keep their first 15 characters plus `'...'`. -/
def displayLabel (name : String) : String :=
  if 18 < name.length then name.take 15 ++ "..." else name

/-- The geometry one drawn session block carries (lines 200-216):
`FancyBboxPatch((0.05, start_hour_pos), 0.9, duration_hours, facecolor=
colors[i % len(colors)], ...)` plus its centered text label. -/
structure RenderedSession where
  vertical_offset : ℚ
  height : ℚ
  color : String
  display_label : String
deriving DecidableEq

/-- The body of the drawing loop (lines 189-216) for the `i`-th entry of
the sorted day list: `None` models `continue` for a session starting
before 7 AM (lines 196-198), otherwise the drawn block.  The `getD`
default is never used: the loop only runs when the day list, and hence
`colors`, is non-empty. -/
def renderEntry (colors : List String) (is : ℕ × SessionRecord) : Option RenderedSession :=
  if session_start_hour is.2 < start_hour then none
  else
    some
      { vertical_offset := session_start_hour is.2
        height := is.2.duration_minutes / 60
        color := colors.getD (is.1 % colors.length) ""
        display_label := displayLabel is.2.task_name }

/-- One day's drawn blocks (lines 170-216): sort the day's sessions by
timestamp, build the color list from the FULL day count, then draw each
session that starts at or after 7 AM, coloring it by its index in the
full sorted list. -/
def renderDay (sessions_for_day : List SessionRecord) : List RenderedSession :=
  let sorted := sortedDay sessions_for_day
  sorted.enum.filterMap (renderEntry (gradientColors sorted.length))

/-- `daily_total = weekly_sessions[day_idx]['duration_minutes'].sum()`
(lines 219-221); the page shows `daily_total / 60` hours.  No filtering:
sessions excluded from drawing still count. -/
def daily_total_minutes (sessions_for_day : List SessionRecord) : ℚ :=
  (sessions_for_day.map (·.duration_minutes)).sum

/-- Everything observable `create_weekly_timeline` puts on the figure:
the shared axis bound and, for each of the seven day columns, the drawn
blocks and the day's total minutes. -/
structure WeeklyTimeline where
  axis_end_hour : ℚ
  days : List (List RenderedSession × ℚ)
deriving DecidableEq

/-- `create_weekly_timeline` (lines 128-237), reduced to its observable
layout output. -/
def create_weekly_timeline (weekly : WeeklySessions) : WeeklyTimeline :=
  { axis_end_hour := end_hour weekly
    days := (List.range 7).map fun d => (renderDay (weekly d), daily_total_minutes (weekly d)) }

/-! ## Grouping and the report assembler (`generate_html_report`,
lines 239-476, and `main`, lines 478-507) -/

/-- `df.groupby('week_start')`'s group for key `w` (line 244): the
records of that week, in original row order. -/
def week_data (df : List SessionRecord) (w : ℤ) : List SessionRecord :=
  df.filter fun r => decide (r.week_start = w)

/-- `week_data.groupby('day_of_week')`'s group for key `d` (line 246). -/
def day_data (wk : List SessionRecord) (d : ℤ) : List SessionRecord :=
  wk.filter fun r => decide (r.day_of_week = d)

/-- `weekly_sessions[day_of_week] = day_data.sort_values('timestamp')`
(line 247): the day list handed to `create_weekly_timeline`. -/
def weekly_sessions (df : List SessionRecord) (w d : ℤ) : List SessionRecord :=
  sortedDay (day_data (week_data df w) d)

/-- The dict for one week as `create_weekly_timeline` consumes it,
looked up at day indices `0 … 6`. -/
def weeklyOf (df : List SessionRecord) (w : ℤ) : WeeklySessions :=
  fun d => weekly_sessions df w (d : ℤ)

/-- `sorted_weeks = sorted(weekly_sessions_dict.keys())` (line 259): the
distinct `week_start` values in ascending order. -/
def weekKeys (df : List SessionRecord) : List ℤ :=
  List.insertionSort (· ≤ ·) (df.map (·.week_start)).dedup

/-- The per-week stats appended to `timeline_files` (lines 273-279):
`total_weekly_minutes` and `total_sessions` summed over the week's day
lists (days absent from the dict are empty lists summing to zero). -/
structure WeekEntry where
  week_start : ℤ
  total_weekly_minutes : ℚ
  total_sessions : ℕ
deriving DecidableEq

def mkWeekEntry (df : List SessionRecord) (w : ℤ) : WeekEntry :=
  { week_start := w
    total_weekly_minutes :=
      ((List.range 7).map fun d => daily_total_minutes (weeklyOf df w d)).sum
    total_sessions := ((List.range 7).map fun d => (weeklyOf df w d).length).sum }

/-- The overview statistics interpolated into the index HTML
(lines 410-427).  The divisions are only evaluated on the non-empty
dataframe `main` passes in, where `df.length` and the week count are
positive. -/
structure Overview where
  weeks_tracked : ℕ
  total_sessions : ℕ
  total_hours : ℚ
  avg_session_hours : ℚ
  avg_hours_per_week : ℚ
deriving DecidableEq

def overview (df : List SessionRecord) : Overview :=
  { weeks_tracked := (weekKeys df).length
    total_sessions := df.length
    total_hours := ((df.map (·.duration_minutes)).sum) / 60
    avg_session_hours := ((df.map (·.duration_minutes)).sum / (df.length : ℚ)) / 60
    avg_hours_per_week := ((df.map (·.duration_minutes)).sum) / 60 / ((weekKeys df).length : ℚ) }

/-- What `generate_html_report` leaves on disk: the `week_start` keys
whose PNG was written, in write order, and the index HTML (`none` when
the run died before line 473 wrote it). -/
structure Report where
  artifacts : List ℤ
  index : Option (Overview × List WeekEntry)
deriving DecidableEq

/-- The per-week loop of lines 261-279.  `fig.savefig` (line 270) is the
only fallible step; the loop body has no exception handler, so a failed
write ends the whole loop (and the function) with the files written so
far.  Returns (PNGs written, `timeline_files` entries, loop completed). -/
def runWeeks (saveOk : ℤ → Bool) (df : List SessionRecord) :
    List ℤ → List ℤ × List WeekEntry × Bool
  | [] => ([], [], true)
  | w :: ws =>
    if saveOk w then
      let rest := runWeeks saveOk df ws
      (w :: rest.1, mkWeekEntry df w :: rest.2.1, rest.2.2)
    else ([], [], false)

/-- `generate_html_report` (lines 239-476): run the per-week loop over
the sorted weeks; the index HTML (line 473) is only written when the
loop ran to completion, and lists the overview stats plus every
`timeline_files` entry. -/
def generate_html_report (saveOk : ℤ → Bool) (df : List SessionRecord) : Report :=
  let r := runWeeks saveOk df (weekKeys df)
  { artifacts := r.1
    index := if r.2.2 then some (overview df, r.2.1) else none }

/-- The observable outcome of `main` (lines 478-507) once the CSV file
exists: either the `df.empty` early return of lines 492-494 (no
artifacts, no index, no statistics evaluated) or a generated report. -/
inductive RunResult where
  | emptyData : RunResult
  | report : Report → RunResult
deriving DecidableEq

/-- `main` after loading: `if df.empty: print(...); return` else
`generate_html_report(df)`. -/
def main_run (saveOk : ℤ → Bool) (rows : List RawRow) : RunResult :=
  let df := load_session_data rows
  if df.isEmpty then .emptyData else .report (generate_html_report saveOk df)

/-- The PNG files a run leaves on disk. -/
def RunResult.artifactsWritten : RunResult → List ℤ
  | .emptyData => []
  | .report r => r.artifacts

/-- The index document a run leaves on disk. -/
def RunResult.indexDocument : RunResult → Option (Overview × List WeekEntry)
  | .emptyData => none
  | .report r => r.index

/-! ## Week filenames (`f"week_{week_start.strftime('%Y_%m_%d')}.png"`,
line 268)

The `week_start` day index corresponds to a calendar date; the filename
renders that date's year (four digits for every pandas-representable
year), zero-padded month and zero-padded day.  Chronological order on
calendar dates is lexicographic order on the (year, month, day)
triple. -/

/-- A calendar date as `strftime` sees it. -/
structure WeekDate where
  year : ℕ
  month : ℕ
  mday : ℕ
deriving DecidableEq

/-- Chronological order on calendar dates. -/
def WeekDate.before (a b : WeekDate) : Prop :=
  a.year < b.year ∨
    (a.year = b.year ∧ (a.month < b.month ∨ (a.month = b.month ∧ a.mday < b.mday)))

/-- Decimal digit character `n % 10`, as Python renders it. -/
def digitChar (n : ℕ) : Char := Char.ofNat (48 + n % 10)

/-- The two-digit zero-padded rendering `%m` / `%d` of `n < 100`. -/
def digits2 (n : ℕ) : List Char := [digitChar (n / 10), digitChar n]

/-- The four-digit rendering `%Y` of a year `n < 10000`. -/
def digits4 (n : ℕ) : List Char := digits2 (n / 100) ++ digits2 n

/-- `f"week_{week_start.strftime('%Y_%m_%d')}.png"` (line 268). -/
def weekFilename (dt : WeekDate) : String :=
  ⟨'w' :: 'e' :: 'e' :: 'k' :: '_' ::
    (digits4 dt.year ++ '_' :: (digits2 dt.month ++ '_' :: (digits2 dt.mday ++ ['.', 'p', 'n', 'g'])))⟩

/-! ## Helper lemmas about the axis scan -/

lemma le_foldl_max (f : SessionRecord → ℚ) :
    ∀ (l : List SessionRecord) (init : ℚ),
      init ≤ l.foldl (fun a s => max a (f s)) init := by
  intro l
  induction l with
  | nil => intro init; exact le_refl init
  | cons s rest ih =>
    intro init
    calc init ≤ max init (f s) := le_max_left _ _
    _ ≤ rest.foldl (fun a s => max a (f s)) (max init (f s)) := ih _

lemma foldl_max_le (f : SessionRecord → ℚ) :
    ∀ (l : List SessionRecord) (init c : ℚ), init ≤ c → (∀ s ∈ l, f s ≤ c) →
      l.foldl (fun a s => max a (f s)) init ≤ c := by
  intro l
  induction l with
  | nil => intro init c h _; exact h
  | cons s rest ih =>
    intro init c h hall
    exact ih _ _ (max_le h (hall s (List.mem_cons_self s rest)))
      fun t ht => hall t (List.mem_cons_of_mem s ht)

lemma mem_le_foldl_max (f : SessionRecord → ℚ) :
    ∀ (l : List SessionRecord) (init : ℚ) (s : SessionRecord), s ∈ l →
      f s ≤ l.foldl (fun a s => max a (f s)) init := by
  intro l
  induction l with
  | nil => intro _ s h; cases h
  | cons t rest ih =>
    intro init s hs
    rcases List.mem_cons.mp hs with h | h
    · subst h
      calc f s ≤ max init (f s) := le_max_right _ _
      _ ≤ rest.foldl (fun a u => max a (f u)) (max init (f s)) := le_foldl_max f rest _
    · exact ih _ s h

/-- The nested day-by-day scan of lines 145-150 equals a single fold
over the week's sessions laid out day by day. -/
lemma latest_end_hour_scan_eq_flat (weekly : WeeklySessions) :
    latest_end_hour_scan weekly =
      (weekSessions weekly).foldl (fun a s => max a (session_end_hour s)) start_hour := by
  unfold latest_end_hour_scan weekSessions
  generalize List.range 7 = ds
  suffices h : ∀ (ds : List ℕ) (init : ℚ),
      ds.foldl (fun acc d => (weekly d).foldl (fun a s => max a (session_end_hour s)) acc) init
        = (ds.flatMap weekly).foldl (fun a s => max a (session_end_hour s)) init by
    exact h ds start_hour
  intro ds
  induction ds with
  | nil => intro _; rfl
  | cons d rest ih =>
    intro init
    simp only [List.foldl_cons, List.flatMap_cons, List.foldl_append]
    exact ih _

/-! ## C1 — week anchoring -/

/-- A valid CSV row whose timestamp falls on a Monday (day index 7,
standing for e.g. `2024-01-08 09:00:00`). -/
def mondayRow : RawRow :=
  { task_name := some "x", duration_minutes := some 30, timestamp := ⟨7, 9, 0, 0⟩ }

/-- C1, evaluated at the failing input: for the Monday row the code
computes `week_start` six days earlier on weekday 1 (a Tuesday, the
start of the pandas `'W-MON'` period, which ENDS on Monday), so
`week_start` is not a Monday and `date ≠ week_start + day_of_week`
(here `date = week_start + 6` while `day_of_week = 0`), contradicting
the claim that `week_start` is the Monday on or before `date` with
`date = week_start + day_of_week`. -/
theorem c1_week_anchor_eval :
    (load_session_data [mondayRow]).map (fun r => (r.date, r.week_start, r.day_of_week)) =
        [(7, 1, 0)]
      ∧ dayofweek 7 = 0 ∧ (1 : ℤ) % 7 ≠ 0 ∧ (7 : ℤ) ≠ 1 + 0 := by
  refine ⟨?_, by decide, by decide, by decide⟩
  simp [load_session_data, rowValid, mondayRow, mkRecord, coerceDuration, weekStartOfDay,
    dayofweek]

/-! ## C2 — the axis range -/

/-- C2 (amended): the axis bound satisfies
`end_hour = min(24, max(start_hour, max over the week's sessions of
session_end_hour) + 0.5)`, and `start_hour ≤ end_hour ≤ 24`; but for a
week with no sessions `end_hour = start_hour + 0.5 = 7.5`, not
`start_hour`: line 153 adds the half-hour pad unconditionally. -/
theorem c2_axis_range (weekly : WeeklySessions) :
    end_hour weekly =
        min 24 ((weekSessions weekly).foldl (fun a s => max a (session_end_hour s)) start_hour
          + 1 / 2)
      ∧ start_hour ≤ end_hour weekly ∧ end_hour weekly ≤ 24
      ∧ ((∀ d < 7, weekly d = []) → end_hour weekly = start_hour + 1 / 2) := by
  refine ⟨?_, ?_, ?_, ?_⟩
  · unfold end_hour
    rw [latest_end_hour_scan_eq_flat]
  · have h7 : start_hour ≤ latest_end_hour_scan weekly := by
      rw [latest_end_hour_scan_eq_flat]
      exact le_foldl_max _ _ _
    unfold end_hour
    refine le_min (by norm_num [start_hour]) ?_
    have : (0 : ℚ) ≤ 1 / 2 := by norm_num
    linarith
  · exact min_le_left _ _
  · intro hempty
    have hflat : weekSessions weekly = [] := by
      unfold weekSessions
      refine List.flatMap_eq_nil_iff.mpr fun d hd => hempty d (List.mem_range.mp hd)
    unfold end_hour
    rw [latest_end_hour_scan_eq_flat, hflat]
    norm_num [start_hour]

/-- Witness for `c2_axis_range`: the all-empty week. -/
theorem c2_axis_range_witness :
    end_hour (fun _ => []) = start_hour + 1 / 2 :=
  (c2_axis_range (fun _ => [])).2.2.2 fun _ _ => rfl

/-- C2, refuted as stated: a week with no sessions has
`end_hour = 7.5`, not `start_hour = 7`. -/
theorem c2_empty_week_counterexample :
    end_hour (fun _ => []) = 15 / 2 ∧ (15 / 2 : ℚ) ≠ 7 ∧ start_hour = 7 := by
  have h : latest_end_hour_scan (fun _ => []) = start_hour := rfl
  refine ⟨?_, by norm_num, rfl⟩
  unfold end_hour
  rw [h]
  norm_num [start_hour]

/-! ## C4 — sessions before 07:00: not drawn, still counted -/

/-- Walking the enumerated day list, the drawing loop emits exactly one
block per session that starts at or after `start_hour`; the starting
index of the enumeration is irrelevant to the count. -/
lemma renderEntry_filterMap_length (colors : List String) :
    ∀ (k : ℕ) (l : List SessionRecord),
      ((List.enumFrom k l).filterMap (renderEntry colors)).length
        = (l.filter fun s => decide (start_hour ≤ session_start_hour s)).length := by
  intro k l
  induction l generalizing k with
  | nil => rfl
  | cons s rest ih =>
    by_cases h : session_start_hour s < start_hour
    · have hnone : renderEntry colors (k, s) = none := by
        simp [renderEntry, h]
      have hfilter : (decide (start_hour ≤ session_start_hour s)) = false := by
        simpa using not_le.mpr h
      simp [List.enumFrom, List.filterMap_cons, List.filter_cons, hnone, hfilter, ih]
    · have hsome : renderEntry colors (k, s) ≠ none := by
        simp [renderEntry, h]
      have hfilter : (decide (start_hour ≤ session_start_hour s)) = true := by
        simpa using not_lt.mp h
      rcases Option.ne_none_iff_exists'.mp hsome with ⟨r, hr⟩
      simp [List.enumFrom, List.filterMap_cons, List.filter_cons, hr, hfilter, ih]

/-- C4: a session starting before 07:00 produces no rectangle — the
number of drawn blocks for a day counts only the sessions with
`start_hour ≤ session_start_hour` — yet its `duration_minutes` is a
summand of the day's total, and a day whose only session starts before
07:00 has zero drawn blocks but a positive `daily_total / 60`. -/
theorem c4_filter_total_asymmetry (ss : List SessionRecord) :
    (renderDay ss).length
        = (ss.filter fun s => decide (start_hour ≤ session_start_hour s)).length
      ∧ (∀ s ∈ ss, daily_total_minutes ss
          = s.duration_minutes + daily_total_minutes (ss.erase s))
      ∧ (∀ s : SessionRecord, session_start_hour s < start_hour → 0 < s.duration_minutes →
          renderDay [s] = [] ∧ 0 < daily_total_minutes [s] / 60) := by
  refine ⟨?_, ?_, ?_⟩
  · show ((List.enumFrom 0 (sortedDay ss)).filterMap
        (renderEntry (gradientColors (sortedDay ss).length))).length = _
    rw [renderEntry_filterMap_length]
    exact ((List.perm_insertionSort tsLeR ss).filter _).length_eq
  · intro s hs
    have hperm : ss.Perm (s :: ss.erase s) := List.perm_cons_erase hs
    unfold daily_total_minutes
    rw [(hperm.map (·.duration_minutes)).sum_eq]
    simp
  · intro s hlt hpos
    constructor
    · have hnone : renderEntry (gradientColors 1) (0, s) = none := by
        simp [renderEntry, hlt]
      simp [renderDay, sortedDay, List.insertionSort, hnone]
    · have : 0 < daily_total_minutes [s] := by
        simpa [daily_total_minutes] using hpos
      positivity

/-- A concrete 06:30 session of 20 minutes on an otherwise empty day. -/
def earlySession : SessionRecord :=
  { task_name := "early"
    duration_minutes := 20
    timestamp := ⟨1, 6, 30, 0⟩
    date := 1
    week_start := 1
    day_of_week := 1 }

/-- Witness for `c4_filter_total_asymmetry`: the 06:30 session is not
drawn but its 20 minutes make the daily total 1/3 of an hour. -/
theorem c4_filter_total_asymmetry_witness :
    renderDay [earlySession] = [] ∧ 0 < daily_total_minutes [earlySession] / 60 ∧
      daily_total_minutes [earlySession]
        = earlySession.duration_minutes + daily_total_minutes ([earlySession].erase earlySession) := by
  have h1 : session_start_hour earlySession < start_hour := by
    norm_num [session_start_hour, earlySession, start_hour]
  have h2 : (0 : ℚ) < earlySession.duration_minutes := by
    norm_num [earlySession]
  exact ⟨((c4_filter_total_asymmetry [earlySession]).2.2 earlySession h1 h2).1,
    ((c4_filter_total_asymmetry [earlySession]).2.2 earlySession h1 h2).2,
    (c4_filter_total_asymmetry [earlySession]).2.1 earlySession (List.mem_singleton.mpr rfl)⟩

/-! ## C3 — color assignment -/

lemma length_gradientColors (n : ℕ) : (gradientColors n).length = n := by
  unfold gradientColors
  split
  · simp [*]
  · simp

lemma interpChannel_zero (a b : ℕ) : interpChannel a b 0 = a := by
  unfold interpChannel pyInt
  have h : ((a : ℚ) + ((b : ℚ) - (a : ℚ)) * 0) = (a : ℚ) := by ring
  rw [h, if_neg (not_lt.mpr (Nat.cast_nonneg a)), Int.floor_natCast]
  exact Int.toNat_natCast a

lemma interpChannel_one (a b : ℕ) : interpChannel a b 1 = b := by
  unfold interpChannel pyInt
  have h : ((a : ℚ) + ((b : ℚ) - (a : ℚ)) * 1) = (b : ℚ) := by ring
  rw [h, if_neg (not_lt.mpr (Nat.cast_nonneg b)), Int.floor_natCast]
  exact Int.toNat_natCast b

lemma gradientRatio_zero (n : ℕ) : gradientRatio 0 n = 0 := by
  unfold gradientRatio
  split <;> simp

lemma gradientRatio_last (n : ℕ) (h : 2 ≤ n) : gradientRatio (n - 1) n = 1 := by
  unfold gradientRatio
  rw [if_pos (by omega)]
  have h1 : ((n - 1 : ℕ) : ℚ) = (n : ℚ) - 1 := by
    push_cast [Nat.cast_sub (by omega : 1 ≤ n)]
    ring
  rw [h1]
  have h2 : (n : ℚ) - 1 ≠ 0 := by
    have : (2 : ℚ) ≤ (n : ℚ) := by exact_mod_cast h
    linarith
  exact div_self h2

lemma getD_map_range (f : ℕ → String) (n i : ℕ) (h : i < n) :
    ((List.range n).map f).getD i "" = f i := by
  rw [List.getD_eq_getElem?_getD, List.getElem?_map, List.getElem?_range h]
  rfl

/-- The first gradient color is the light-teal anchor `#b8f2e6`. -/
lemma gradientColors_first (n : ℕ) (h : 1 ≤ n) :
    (gradientColors n).getD 0 "" = "#b8f2e6" := by
  rcases Nat.lt_or_ge n 2 with h2 | h2
  · have : n = 1 := by omega
    subst this
    rfl
  · unfold gradientColors
    rw [if_neg (by omega), getD_map_range _ _ _ (by omega)]
    simp only [gradientRatio_zero, interpChannel_zero]
    decide

/-- The last gradient color is the light-lavender anchor `#eebbee`. -/
lemma gradientColors_last (n : ℕ) (h : 2 ≤ n) :
    (gradientColors n).getD (n - 1) "" = "#eebbee" := by
  unfold gradientColors
  rw [if_neg (by omega), getD_map_range _ _ _ (by omega)]
  simp only [gradientRatio_last n h, interpChannel_one]
  decide

/-- If the loop body accepts the `i`-th entry of the enumerated list,
its output block is among the day's drawn blocks. -/
lemma mem_filterMap_enumFrom {β : Type} (g : ℕ × SessionRecord → Option β) :
    ∀ (k : ℕ) (l : List SessionRecord) (i : ℕ) (h : i < l.length) (b : β),
      g (k + i, l.get ⟨i, h⟩) = some b → b ∈ (List.enumFrom k l).filterMap g := by
  intro k l
  induction l generalizing k with
  | nil => intro i h; simp at h
  | cons s rest ih =>
    intro i h b hg
    cases i with
    | zero =>
      have hg0 : g (k, s) = some b := hg
      simp only [List.enumFrom, List.filterMap_cons, hg0]
      exact List.mem_cons_self _ _
    | succ i =>
      have hg' : g (k + 1 + i, rest.get ⟨i, by simpa using h⟩) = some b := by
        rw [show k + 1 + i = k + (i + 1) by omega]
        exact hg
      have hmem := ih (k + 1) i (by simpa using h) b hg'
      simp only [List.enumFrom, List.filterMap_cons]
      cases hx : g (k, s) with
      | none => exact hmem
      | some b' => exact List.mem_cons_of_mem b' hmem

/-- C3 (amended): colors are interpolated over the FULL sorted day list
(pre-7AM sessions included), not over the rendered list: with `n` total
sessions for the day, the session at full-list index `i` — when it is
rendered at all — carries the color at index `i` of the `n`-entry
gradient; the gradient's first entry is the teal anchor, its last the
lavender anchor, and entry `i` interpolates the anchors with fraction
`i / (n-1)` for `n > 1`. -/
theorem c3_color_by_full_index :
    (∀ (ss : List SessionRecord) (i : ℕ) (h : i < (sortedDay ss).length),
        start_hour ≤ session_start_hour ((sortedDay ss).get ⟨i, h⟩) →
        ({ vertical_offset := session_start_hour ((sortedDay ss).get ⟨i, h⟩)
           height := ((sortedDay ss).get ⟨i, h⟩).duration_minutes / 60
           color := (gradientColors (sortedDay ss).length).getD i ""
           display_label := displayLabel ((sortedDay ss).get ⟨i, h⟩).task_name } :
            RenderedSession) ∈ renderDay ss)
      ∧ (∀ n, 1 ≤ n → (gradientColors n).getD 0 "" = "#b8f2e6")
      ∧ (∀ n, 2 ≤ n → (gradientColors n).getD (n - 1) "" = "#eebbee")
      ∧ (∀ n i, 1 < n → i < n →
          (gradientColors n).getD i ""
            = rgbHex (interpChannel 184 238 (gradientRatio i n))
                (interpChannel 242 187 (gradientRatio i n))
                (interpChannel 230 238 (gradientRatio i n))) := by
  refine ⟨?_, gradientColors_first, gradientColors_last, ?_⟩
  · intro ss i h hge
    show _ ∈ (List.enumFrom 0 (sortedDay ss)).filterMap
      (renderEntry (gradientColors (sortedDay ss).length))
    apply mem_filterMap_enumFrom _ 0 (sortedDay ss) i h
    unfold renderEntry
    rw [if_neg (not_lt.mpr hge)]
    simp only [Nat.zero_add, length_gradientColors, Nat.mod_eq_of_lt h]
  · intro n i h1 h2
    unfold gradientColors
    rw [if_neg (by omega), getD_map_range _ _ _ h2]

/-- A 06:00 session: first in its day's full list, filtered from
drawing. -/
def cxEarly : SessionRecord :=
  { task_name := "a"
    duration_minutes := 30
    timestamp := ⟨1, 6, 0, 0⟩
    date := 1
    week_start := 1
    day_of_week := 1 }

/-- A 09:00 session: second in the full list, the only one drawn. -/
def cxLate : SessionRecord :=
  { task_name := "b"
    duration_minutes := 30
    timestamp := ⟨1, 9, 0, 0⟩
    date := 1
    week_start := 1
    day_of_week := 1 }

lemma gradientColors_two : gradientColors 2 = ["#b8f2e6", "#eebbee"] := by
  have h0 : gradientRatio 0 2 = 0 := gradientRatio_zero 2
  have h1 : gradientRatio 1 2 = 1 := gradientRatio_last 2 (by omega)
  unfold gradientColors
  rw [if_neg (by omega)]
  simp only [List.range_succ, List.range_zero, List.nil_append, List.cons_append,
    List.map_cons, List.map_nil, h0, h1, interpChannel_zero, interpChannel_one]
  decide

/-- C3, refuted as stated: on a day whose sessions are 06:00 `"a"` and
09:00 `"b"`, exactly one session is rendered, yet its color is the
SECOND anchor `#eebbee` (its index in the full day list is 1 of 2), not
the first anchor `#b8f2e6` the claim requires for a day with a single
rendered session. -/
theorem c3_full_index_counterexample :
    (renderDay [cxEarly, cxLate]).map (·.color) = ["#eebbee"]
      ∧ ("#eebbee" : String) ≠ "#b8f2e6" := by
  refine ⟨?_, by decide⟩
  have hsort : sortedDay [cxEarly, cxLate] = [cxEarly, cxLate] := by decide
  have hnone : renderEntry (gradientColors 2) (0, cxEarly) = none := by
    unfold renderEntry
    rw [if_pos]
    norm_num [session_start_hour, cxEarly, start_hour]
  have hsome : renderEntry (gradientColors 2) (1, cxLate) =
      some { vertical_offset := session_start_hour cxLate
             height := cxLate.duration_minutes / 60
             color := "#eebbee"
             display_label := displayLabel cxLate.task_name } := by
    unfold renderEntry
    rw [if_neg (by norm_num [session_start_hour, cxLate, start_hour])]
    rw [gradientColors_two]
    rfl
  show ((List.enumFrom 0 (sortedDay [cxEarly, cxLate])).filterMap
      (renderEntry (gradientColors (sortedDay [cxEarly, cxLate]).length))).map (·.color) = _
  rw [hsort]
  show ((List.filterMap (renderEntry (gradientColors 2)) [(0, cxEarly), (1, cxLate)])).map
    (·.color) = _
  rw [List.filterMap_cons, hnone, List.filterMap_cons, hsome]
  rfl

/-- Witness for `c3_color_by_full_index`: a day whose only session is at
09:00 renders it with the teal anchor color. -/
theorem c3_color_by_full_index_witness :
    ({ vertical_offset := session_start_hour cxLate
       height := cxLate.duration_minutes / 60
       color := (gradientColors 1).getD 0 ""
       display_label := displayLabel cxLate.task_name } : RenderedSession)
        ∈ renderDay [cxLate]
      ∧ (gradientColors 1).getD 0 "" = "#b8f2e6" :=
  ⟨c3_color_by_full_index.1 [cxLate] 0 (by decide)
      (by norm_num [sortedDay, List.insertionSort, List.orderedInsert, session_start_hour,
        cxLate, start_hour]),
    c3_color_by_full_index.2.1 1 (by omega)⟩

/-! ## C10 — the axis scan sees sessions the renderer drops -/

/-- Every drawn block sits at or below the 7 AM line: the renderer never
emits geometry for an earlier start. -/
lemma renderDay_offset_ge (ss : List SessionRecord) (r : RenderedSession)
    (hr : r ∈ renderDay ss) : start_hour ≤ r.vertical_offset := by
  unfold renderDay at hr
  rcases List.mem_filterMap.mp hr with ⟨⟨i, s⟩, _, hg⟩
  unfold renderEntry at hg
  by_cases h : session_start_hour s < start_hour
  · rw [if_pos h] at hg
    cases hg
  · rw [if_neg h] at hg
    cases hg
    exact not_lt.mp h

/-- C10: the axis scan of lines 144-153 has no 7 AM filter, so when the
week's largest `session_start_hour + duration_hours` belongs to a
session that starts before 07:00, that session alone fixes
`end_hour = min(24, its end + 0.5)` even though it is never drawn —
every drawn block of its day starts strictly later than it. -/
theorem c10_unrendered_session_sets_axis (weekly : WeeklySessions) (d : ℕ)
    (s : SessionRecord) (hd : d < 7) (hs : s ∈ weekly d)
    (hearly : session_start_hour s < start_hour)
    (hbig : start_hour ≤ session_end_hour s)
    (hmax : ∀ d' < 7, ∀ t ∈ weekly d', session_end_hour t ≤ session_end_hour s) :
    end_hour weekly = min 24 (session_end_hour s + 1 / 2)
      ∧ ∀ r ∈ renderDay (weekly d), session_start_hour s < r.vertical_offset := by
  constructor
  · have hmem : s ∈ weekSessions weekly :=
      List.mem_flatMap.mpr ⟨d, List.mem_range.mpr hd, hs⟩
    have hub : ∀ t ∈ weekSessions weekly, session_end_hour t ≤ session_end_hour s := by
      intro t ht
      rcases List.mem_flatMap.mp ht with ⟨d', hd', ht'⟩
      exact hmax d' (List.mem_range.mp hd') t ht'
    have hscan : latest_end_hour_scan weekly = session_end_hour s := by
      rw [latest_end_hour_scan_eq_flat]
      exact le_antisymm (foldl_max_le _ _ _ _ hbig hub) (mem_le_foldl_max _ _ _ _ hmem)
    unfold end_hour
    rw [hscan]
  · intro r hr
    exact lt_of_lt_of_le hearly (renderDay_offset_ge (weekly d) r hr)

/-- A 06:00 session of 240 minutes: never drawn, ends at 10.0, the
week's maximum. -/
def axEarly : SessionRecord :=
  { task_name := "early long"
    duration_minutes := 240
    timestamp := ⟨1, 6, 0, 0⟩
    date := 1
    week_start := 1
    day_of_week := 1 }

/-- A 09:00 session of 30 minutes on the next day, ending at 9.5. -/
def axLate : SessionRecord :=
  { task_name := "late short"
    duration_minutes := 30
    timestamp := ⟨2, 9, 0, 0⟩
    date := 2
    week_start := 1
    day_of_week := 2 }

/-- The concrete week for the C10 witness. -/
def axWeek : WeeklySessions := fun d =>
  if d = 0 then [axEarly] else if d = 1 then [axLate] else []

/-- Witness for `c10_unrendered_session_sets_axis` on `axWeek`: the
never-drawn 06:00-10:00 session fixes the axis at `min 24 10.5`. -/
theorem c10_unrendered_session_sets_axis_witness :
    end_hour axWeek = min 24 (session_end_hour axEarly + 1 / 2)
      ∧ ∀ r ∈ renderDay (axWeek 0), session_start_hour axEarly < r.vertical_offset := by
  have hmax : ∀ d' < 7, ∀ t ∈ axWeek d', session_end_hour t ≤ session_end_hour axEarly := by
    intro d' hd' t ht
    interval_cases d' <;> simp [axWeek] at ht <;> subst ht <;>
      norm_num [session_end_hour, session_start_hour, axEarly, axLate]
  exact c10_unrendered_session_sets_axis axWeek 0 axEarly (by omega) (by simp [axWeek])
    (by norm_num [session_start_hour, axEarly, start_hour])
    (by norm_num [session_end_hour, session_start_hour, axEarly, start_hour]) hmax

/-! ## C5 — invalid rows never contribute anywhere -/

/-- A row of the kinds the claim names: unparseable duration
(`to_numeric` NaN), non-positive duration, or an absent/empty task
name. -/
def invalidRow (r : RawRow) : Prop :=
  r.duration_minutes = none ∨ (∃ q, r.duration_minutes = some q ∧ q ≤ 0) ∨
    r.task_name = none ∨ r.task_name = some ""

lemma rowValid_false_of_invalid (r : RawRow) (h : invalidRow r) : rowValid r = false := by
  rcases h with h | ⟨q, hq, hle⟩ | h | h
  · simp [rowValid, coerceDuration, h]
  · simp [rowValid, coerceDuration, hq]
    intro h0
    exact absurd h0 (not_lt.mpr hle)
  · simp [rowValid, h]
  · simp [rowValid, h]

/-- C5: a row with an unparseable or non-positive duration or an
absent/empty task name is dropped by normalization, so every surviving
record has a positive duration and a non-empty name, and inserting such
a row anywhere in the input changes nothing downstream: not the record
list, not any week/day group, not the generated report with its
artifacts, index entries and totals. -/
theorem c5_invalid_rows_inert (pre post : List RawRow) (r : RawRow) (h : invalidRow r) :
    load_session_data (pre ++ r :: post) = load_session_data (pre ++ post)
      ∧ (∀ rec ∈ load_session_data (pre ++ r :: post),
          0 < rec.duration_minutes ∧ rec.task_name ≠ "")
      ∧ (∀ w d : ℤ, weekly_sessions (load_session_data (pre ++ r :: post)) w d
          = weekly_sessions (load_session_data (pre ++ post)) w d)
      ∧ (∀ saveOk : ℤ → Bool,
          generate_html_report saveOk (load_session_data (pre ++ r :: post))
            = generate_html_report saveOk (load_session_data (pre ++ post))) := by
  have heq : load_session_data (pre ++ r :: post) = load_session_data (pre ++ post) := by
    unfold load_session_data
    rw [List.filter_append, List.filter_cons, rowValid_false_of_invalid r h,
      List.filter_append]
    simp
  refine ⟨heq, ?_, fun w d => by rw [heq], fun saveOk => by rw [heq]⟩
  intro rec hrec
  rcases List.mem_map.mp hrec with ⟨row, hrow, hmk⟩
  have hvalid : rowValid row = true := (List.mem_filter.mp hrow).2
  have hdur : 0 < coerceDuration row := by
    have := (Bool.and_elim_left hvalid)
    exact of_decide_eq_true this
  have hname : row.task_name.isSome = true ∧ row.task_name ≠ some "" := by
    have h2 := Bool.and_elim_right hvalid
    exact ⟨Bool.and_elim_left h2, of_decide_eq_true (Bool.and_elim_right h2)⟩
  subst hmk
  refine ⟨hdur, ?_⟩
  rcases Option.isSome_iff_exists.mp hname.1 with ⟨name, hn⟩
  have : name ≠ "" := fun he => hname.2 (by rw [hn, he])
  simp [mkRecord, hn, this]

/-- A row whose task name is the empty string. -/
def emptyNameRow : RawRow :=
  { task_name := some "", duration_minutes := some 30, timestamp := ⟨1, 9, 0, 0⟩ }

/-- Witness for `c5_invalid_rows_inert`: the empty-name row alone
normalizes to nothing and its report equals the empty dataset's. -/
theorem c5_invalid_rows_inert_witness :
    load_session_data ([] ++ emptyNameRow :: []) = load_session_data ([] ++ [])
      ∧ ∀ saveOk : ℤ → Bool,
          generate_html_report saveOk (load_session_data ([] ++ emptyNameRow :: []))
            = generate_html_report saveOk (load_session_data ([] ++ [])) := by
  have h := c5_invalid_rows_inert [] [] emptyNameRow (Or.inr (Or.inr (Or.inr rfl)))
  exact ⟨h.1, h.2.2.2⟩

/-! ## C7 — zero valid rows -/

/-- C7: when filtering leaves no valid rows, `main` takes the
`df.empty` early return (lines 492-494): the outcome is the explicit
empty-data state, no per-week artifact and no index document exist, and
the overview statistics (with their divisions by the session and week
counts) are never computed because `generate_html_report` is never
called. -/
theorem c7_empty_dataset (rows : List RawRow) (saveOk : ℤ → Bool)
    (h : load_session_data rows = []) :
    main_run saveOk rows = .emptyData
      ∧ (main_run saveOk rows).artifactsWritten = []
      ∧ (main_run saveOk rows).indexDocument = none := by
  have hmain : main_run saveOk rows = .emptyData := by
    unfold main_run
    rw [h]
    rfl
  exact ⟨hmain, by rw [hmain]; rfl, by rw [hmain]; rfl⟩

/-- Witness for `c7_empty_dataset`: a dataset whose only row has an
empty task name. -/
theorem c7_empty_dataset_witness :
    main_run (fun _ => true) [emptyNameRow] = .emptyData
      ∧ (main_run (fun _ => true) [emptyNameRow]).artifactsWritten = []
      ∧ (main_run (fun _ => true) [emptyNameRow]).indexDocument = none :=
  c7_empty_dataset [emptyNameRow] (fun _ => true)
    (by simp [load_session_data, rowValid, emptyNameRow])

/-! ## C8 — a failed week write aborts the run -/

/-- The per-week loop in closed form: the weeks written are exactly the
longest prefix of saves that succeed, the index entries mirror them, and
the loop completes only when every save succeeds. -/
lemma runWeeks_eq (saveOk : ℤ → Bool) (df : List SessionRecord) :
    ∀ ws : List ℤ,
      runWeeks saveOk df ws
        = (ws.takeWhile saveOk, (ws.takeWhile saveOk).map (mkWeekEntry df), ws.all saveOk) := by
  intro ws
  induction ws with
  | nil => rfl
  | cons w ws ih =>
    by_cases h : saveOk w = true
    · simp [runWeeks, h, List.takeWhile_cons, List.all_cons, ih]
    · have h' : saveOk w = false := by simpa using h
      simp [runWeeks, h', List.takeWhile_cons, List.all_cons]

/-- C8 (amended): per-week failures are NOT isolated.  The loop of
lines 261-279 has no exception handler, so the artifacts on disk are
exactly the weeks before the first failing save, every later week is
skipped, and the index document is written only when every week's save
succeeded — a single failure leaves no index at all rather than an
index omitting the failed week. -/
theorem c8_failure_aborts_run (saveOk : ℤ → Bool) (df : List SessionRecord) :
    (generate_html_report saveOk df).artifacts = (weekKeys df).takeWhile saveOk
      ∧ (generate_html_report saveOk df).index
          = if (weekKeys df).all saveOk then
              some (overview df, ((weekKeys df).takeWhile saveOk).map (mkWeekEntry df))
            else none := by
  unfold generate_html_report
  rw [runWeeks_eq]
  exact ⟨rfl, rfl⟩

/-- Week-1 session (Tuesday day-index 1, week key 1). -/
def wk1Row : RawRow :=
  { task_name := some "a", duration_minutes := some 30, timestamp := ⟨1, 9, 0, 0⟩ }

/-- Week-2 session (Tuesday day-index 8, week key 8). -/
def wk2Row : RawRow :=
  { task_name := some "b", duration_minutes := some 30, timestamp := ⟨8, 9, 0, 0⟩ }

/-- A save oracle under which only week 1's PNG write fails. -/
def failFirstSave : ℤ → Bool := fun w => decide (w ≠ 1)

/-- C8, refuted as stated: with two weeks `[1, 8]` and only week 1's
write failing, NOTHING is persisted — week 8's artifact is absent and no
index document exists, where the claim promises week 8's artifact plus
an index omitting week 1. -/
theorem c8_failure_aborts_counterexample :
    weekKeys (load_session_data [wk1Row, wk2Row]) = [1, 8]
      ∧ failFirstSave 8 = true ∧ failFirstSave 1 = false
      ∧ (generate_html_report failFirstSave (load_session_data [wk1Row, wk2Row])).artifacts = []
      ∧ (generate_html_report failFirstSave (load_session_data [wk1Row, wk2Row])).index = none := by
  refine ⟨by decide, by decide, by decide, by decide, by decide⟩

/-! ## C6 — grouping under permutation and ties -/

/-- C6 (amended): grouping is pure up to the tie order of the sort: for
permuted inputs each week/day list is the same multiset and is sorted
ascending by timestamp, and when the valid records' timestamps are
pairwise distinct the lists are identical.  (Exact equality cannot hold
at ties: a stable order follows insertion order, which permuting the
input changes; and the pandas default `sort_values` kind gives no
stability guarantee at all.) -/
theorem c6_grouping_pure_upto_ties (rows1 rows2 : List RawRow) (hperm : rows1.Perm rows2)
    (w d : ℤ) :
    (weekly_sessions (load_session_data rows1) w d).Perm
        (weekly_sessions (load_session_data rows2) w d)
      ∧ List.Sorted tsLeR (weekly_sessions (load_session_data rows1) w d)
      ∧ (((load_session_data rows1).Pairwise fun a b =>
            a.timestamp.toSeconds ≠ b.timestamp.toSeconds) →
          weekly_sessions (load_session_data rows1) w d
            = weekly_sessions (load_session_data rows2) w d) := by
  have hload : (load_session_data rows1).Perm (load_session_data rows2) :=
    (hperm.filter rowValid).map mkRecord
  have hgrp : (day_data (week_data (load_session_data rows1) w) d).Perm
      (day_data (week_data (load_session_data rows2) w) d) :=
    (hload.filter _).filter _
  have hp : (weekly_sessions (load_session_data rows1) w d).Perm
      (weekly_sessions (load_session_data rows2) w d) :=
    (List.perm_insertionSort tsLeR _).trans (hgrp.trans (List.perm_insertionSort tsLeR _).symm)
  refine ⟨hp, List.sorted_insertionSort tsLeR _, ?_⟩
  intro hnd
  have hsub1 : (day_data (week_data (load_session_data rows1) w) d).Sublist
      (load_session_data rows1) :=
    (List.filter_sublist _).trans (List.filter_sublist _)
  have hsub2 : (day_data (week_data (load_session_data rows2) w) d).Sublist
      (load_session_data rows2) :=
    (List.filter_sublist _).trans (List.filter_sublist _)
  have hnd2 : (load_session_data rows2).Pairwise fun a b =>
      a.timestamp.toSeconds ≠ b.timestamp.toSeconds :=
    (hload.pairwise_iff fun h => h.symm).mp hnd
  have hne1 : (weekly_sessions (load_session_data rows1) w d).Pairwise fun a b =>
      a.timestamp.toSeconds ≠ b.timestamp.toSeconds :=
    ((List.perm_insertionSort tsLeR _).pairwise_iff fun h => h.symm).mpr (hnd.sublist hsub1)
  have hne2 : (weekly_sessions (load_session_data rows2) w d).Pairwise fun a b =>
      a.timestamp.toSeconds ≠ b.timestamp.toSeconds :=
    ((List.perm_insertionSort tsLeR _).pairwise_iff fun h => h.symm).mpr (hnd2.sublist hsub2)
  have hs1 : List.Sorted (fun a b : SessionRecord =>
      a.timestamp.toSeconds < b.timestamp.toSeconds)
      (weekly_sessions (load_session_data rows1) w d) :=
    ((List.sorted_insertionSort tsLeR _).and hne1).imp fun h =>
      lt_of_le_of_ne h.1 h.2
  have hs2 : List.Sorted (fun a b : SessionRecord =>
      a.timestamp.toSeconds < b.timestamp.toSeconds)
      (weekly_sessions (load_session_data rows2) w d) :=
    ((List.sorted_insertionSort tsLeR _).and hne2).imp fun h =>
      lt_of_le_of_ne h.1 h.2
  haveI : IsAntisymm SessionRecord fun a b : SessionRecord =>
      a.timestamp.toSeconds < b.timestamp.toSeconds :=
    ⟨fun _ _ h1 h2 => (lt_asymm h1 h2).elim⟩
  exact List.eq_of_perm_of_sorted hp hs1 hs2

/-- Two rows that differ only in task name, with the same timestamp. -/
def tieA : RawRow :=
  { task_name := some "a", duration_minutes := some 30, timestamp := ⟨1, 9, 0, 0⟩ }

/-- The tied partner of `tieA`. -/
def tieB : RawRow :=
  { task_name := some "b", duration_minutes := some 30, timestamp := ⟨1, 9, 0, 0⟩ }

/-- C6, refuted as stated: the two orders of the same two tied-timestamp
rows are permutations of each other, yet the day lists they group into
differ (each keeps its own insertion order), so grouping does not yield
identical WeekBucket contents across permutations. -/
theorem c6_tie_order_counterexample :
    ([tieA, tieB] : List RawRow).Perm [tieB, tieA]
      ∧ weekly_sessions (load_session_data [tieA, tieB]) 1 1
          ≠ weekly_sessions (load_session_data [tieB, tieA]) 1 1 :=
  ⟨List.Perm.swap tieB tieA [], by decide⟩

/-- Witness for `c6_grouping_pure_upto_ties` at a one-row dataset. -/
theorem c6_grouping_pure_upto_ties_witness :
    (weekly_sessions (load_session_data [tieA]) 1 1).Perm
        (weekly_sessions (load_session_data [tieA]) 1 1)
      ∧ List.Sorted tsLeR (weekly_sessions (load_session_data [tieA]) 1 1)
      ∧ weekly_sessions (load_session_data [tieA]) 1 1
          = weekly_sessions (load_session_data [tieA]) 1 1 := by
  have h := c6_grouping_pure_upto_ties [tieA] [tieA] (List.Perm.refl _) 1 1
  exact ⟨h.1, h.2.1, h.2.2 (by decide)⟩

/-! ## C9 — filename order is chronological order -/

lemma lex_append_right (cs ds : List Char) (h : List.Lex (· < ·) cs ds) :
    ∀ as : List Char, List.Lex (· < ·) (as ++ cs) (as ++ ds) := by
  intro as
  induction as with
  | nil => exact h
  | cons a as ih => exact List.Lex.cons ih

lemma lex_append_left {as bs : List Char} (h : List.Lex (· < ·) as bs)
    (hlen : as.length = bs.length) :
    ∀ cs ds : List Char, List.Lex (· < ·) (as ++ cs) (bs ++ ds) := by
  induction h with
  | nil => intro hl; simp at hlen
  | @cons a l1 l2 _ ih =>
    intro cs ds
    exact List.Lex.cons (ih (by simpa using hlen) cs ds)
  | rel hr => intro cs ds; exact List.Lex.rel hr

lemma digitChar_lt (a b : ℕ) (h : a % 10 < b % 10) : digitChar a < digitChar b := by
  have key : ∀ x, x < 10 → ∀ y, y < 10 →
      (x < y → Char.ofNat (48 + x) < Char.ofNat (48 + y)) := by decide
  unfold digitChar
  exact key (a % 10) (Nat.mod_lt _ (by omega)) (b % 10) (Nat.mod_lt _ (by omega)) h

lemma digitChar_congr (a b : ℕ) (h : a % 10 = b % 10) : digitChar a = digitChar b := by
  unfold digitChar
  rw [h]

/-- Two-digit zero-padded renderings compare like the values they
render. -/
lemma digits2_lt (m1 m2 : ℕ) (h : m1 % 100 < m2 % 100) :
    List.Lex (· < ·) (digits2 m1) (digits2 m2) := by
  unfold digits2
  rcases Nat.lt_or_ge (m1 / 10 % 10) (m2 / 10 % 10) with ht | ht
  · exact List.Lex.rel (digitChar_lt (m1 / 10) (m2 / 10) ht)
  · have hteq : digitChar (m1 / 10) = digitChar (m2 / 10) :=
      digitChar_congr (m1 / 10) (m2 / 10) (by omega)
    rw [hteq]
    exact List.Lex.cons (List.Lex.rel (digitChar_lt m1 m2 (by omega)))

/-- Four-digit zero-padded year renderings compare like the years. -/
lemma digits4_lt (y1 y2 : ℕ) (h1 : y1 < 10000) (h2 : y2 < 10000) (hlt : y1 < y2) :
    List.Lex (· < ·) (digits4 y1) (digits4 y2) := by
  unfold digits4
  rcases Nat.lt_or_ge (y1 / 100) (y2 / 100) with hh | hh
  · exact lex_append_left (digits2_lt (y1 / 100) (y2 / 100) (by omega)) rfl _ _
  · have heq : y1 / 100 = y2 / 100 := by omega
    rw [heq]
    exact lex_append_right _ _ (digits2_lt y1 y2 (by omega)) _

/-- C9: the filename map is strictly monotone — an earlier `week_start`
date always yields a lexicographically smaller
`week_<YYYY>_<MM>_<DD>.png` name (so sorting the filenames
lexicographically reproduces chronological order) — and the assembler
walks the weeks in ascending `week_start` order: its week list is
sorted, and when every save succeeds the artifacts appear on disk in
exactly that sorted order. -/
theorem c9_filename_chronological :
    (∀ d1 d2 : WeekDate, d1.year < 10000 → d2.year < 10000 → d1.month < 100 →
        d2.month < 100 → d1.mday < 100 → d2.mday < 100 → d1.before d2 →
        weekFilename d1 < weekFilename d2)
      ∧ (∀ df : List SessionRecord, List.Sorted (· ≤ ·) (weekKeys df)
          ∧ (generate_html_report (fun _ => true) df).artifacts = weekKeys df) := by
  constructor
  · rintro ⟨y1, m1, dd1⟩ ⟨y2, m2, dd2⟩ hy1 hy2 hm1 hm2 hd1 hd2 hbefore
    dsimp only [WeekDate.before] at hbefore
    dsimp only at hy1 hy2 hm1 hm2 hd1 hd2
    rw [String.lt_iff_toList_lt]
    show List.Lex (· < ·)
      ('w' :: 'e' :: 'e' :: 'k' :: '_' ::
        (digits4 y1 ++ '_' :: (digits2 m1 ++ '_' :: (digits2 dd1 ++ ['.', 'p', 'n', 'g']))))
      ('w' :: 'e' :: 'e' :: 'k' :: '_' ::
        (digits4 y2 ++ '_' :: (digits2 m2 ++ '_' :: (digits2 dd2 ++ ['.', 'p', 'n', 'g']))))
    refine List.Lex.cons (List.Lex.cons (List.Lex.cons (List.Lex.cons (List.Lex.cons ?_))))
    rcases hbefore with hy | ⟨hyeq, hm | ⟨hmeq, hd⟩⟩
    · exact lex_append_left (digits4_lt y1 y2 hy1 hy2 hy) rfl _ _
    · subst hyeq
      refine lex_append_right _ _ ?_ (digits4 y1)
      refine List.Lex.cons ?_
      exact lex_append_left (digits2_lt m1 m2 (by omega)) rfl _ _
    · subst hyeq
      subst hmeq
      refine lex_append_right _ _ ?_ (digits4 y1)
      refine List.Lex.cons ?_
      refine lex_append_right _ _ ?_ (digits2 m1)
      refine List.Lex.cons ?_
      exact lex_append_left (digits2_lt dd1 dd2 (by omega)) rfl _ _
  · intro df
    refine ⟨List.sorted_insertionSort _ _, ?_⟩
    unfold generate_html_report
    rw [runWeeks_eq]
    simp

/-- Witness for `c9_filename_chronological`: the month boundary
September 30 → October 1 (where unpadded names would sort wrongly), and
the concrete two-week dataset. -/
theorem c9_filename_chronological_witness :
    weekFilename ⟨2025, 9, 30⟩ < weekFilename ⟨2025, 10, 1⟩
      ∧ List.Sorted (· ≤ ·) (weekKeys (load_session_data [wk1Row, wk2Row]))
      ∧ (generate_html_report (fun _ => true) (load_session_data [wk1Row, wk2Row])).artifacts
          = weekKeys (load_session_data [wk1Row, wk2Row]) :=
  ⟨c9_filename_chronological.1 ⟨2025, 9, 30⟩ ⟨2025, 10, 1⟩ (by decide) (by decide) (by decide)
      (by decide) (by decide) (by decide) (Or.inr ⟨rfl, Or.inl (by decide)⟩),
    (c9_filename_chronological.2 (load_session_data [wk1Row, wk2Row])).1,
    (c9_filename_chronological.2 (load_session_data [wk1Row, wk2Row])).2⟩

end DailyTimelineViz
